import Mathlib

/-!
Verification development for the signal-deck shell engine
(crates/shell-engine).

The Rust sources are embedded shallowly:

* The sandboxed Monty interpreter (the external `monty` crate wrapped by
  `monty_runtime::eval_python` / `monty_runtime::resume_with_result`) is an
  external collaborator.  It is modelled as an oracle structure
  `MontyOracle` whose fields are the two entry points plus the Display
  implementation of `MontyObject` (used by the engine via format strings).
  Snapshot values are opaque tokens (`Nat`).
* Pure repository code (session store, lexical underscore scanner, magic
  command parser, call router `map_ext_call_to_host_call`, the
  entity-state value bridge, `parse_ago_to_monty`, entity-id heuristics,
  and the engine state machine `eval` / `fulfill_host_call`) is embedded
  function by function.
* Rust strings are scanned byte-wise in the sources; every byte the
  scanners compare against is ASCII and UTF-8 multi-byte sequences contain
  no ASCII bytes, so the embeddings scan `List Char` instead, which agrees
  with the byte-level code on all inputs.
* Presentation-only leaf formatters (tables, cards, sparklines, charts),
  which never touch session state, are represented by tagged
  `RenderSpec.formattedJson` / `RenderSpec.formattedObj` nodes carrying
  their full input; their internal layout is out of scope.
* `serde_json::from_str` is external; `fulfill_host_call` therefore takes
  the parse result (`Except String Json`) in place of the raw string.
* The `u64` call counter increments modulo `2 ^ 64`.
* The recursive resumption of locally resolved `ago` pauses is modelled
  with explicit fuel; the Rust recursion is unbounded.
-/

/-- Model of `monty::MontyObject` (the closed tagged value union of the
sandbox).  `float` carries an exact rational standing for the `f64`
payload; `dataclass` keeps the name, field order, attribute pairs and the
frozen flag (the constant `type_id`/`methods` fields are dropped). -/
inductive MontyObject where
  | none : MontyObject
  | bool (b : Bool) : MontyObject
  | int (n : Int) : MontyObject
  | float (q : ℚ) : MontyObject
  | str (s : String) : MontyObject
  | list (items : List MontyObject) : MontyObject
  | tuple (items : List MontyObject) : MontyObject
  | dict (pairs : List (MontyObject × MontyObject)) : MontyObject
  | dataclass (name : String) (fieldNames : List String)
      (attrs : List (MontyObject × MontyObject)) (frozen : Bool) : MontyObject

/-- Model of `serde_json::Value`.  Numbers carry an exact rational; objects
are ordered key/value lists (engine-built objects have distinct keys). -/
inductive Json where
  | null : Json
  | bool (b : Bool) : Json
  | num (q : ℚ) : Json
  | str (s : String) : Json
  | arr (items : List Json) : Json
  | obj (fields : List (String × Json)) : Json

/-- `value.get(key)` on a JSON object (serde returns `None` off objects). -/
def Json.getKey : Json → String → Option Json
  | .obj fields, key => (fields.find? (fun p => p.1 = key)).map Prod.snd
  | _, _ => Option.none

/-- `value.as_str()`. -/
def Json.asStr : Json → Option String
  | .str s => some s
  | _ => Option.none

/-- Model of `render::RenderSpec` restricted to the constructors the engine
control flow produces.  Presentation-only leaf formatters appear as
`formattedJson` / `formattedObj` nodes tagged with the Rust formatter name
and carrying the full formatter input. -/
inductive RenderSpec where
  | text (content : String) : RenderSpec
  | error (message : String) : RenderSpec
  | hostCall (callId : String) (method : String) (params : Json) : RenderSpec
  | vstack (children : List RenderSpec) : RenderSpec
  | help (content : String) : RenderSpec
  | assistant (response : String) (agent : String) : RenderSpec
  | copyable (content : String) (label : Option String) : RenderSpec
  | formattedJson (formatter : String) (value : Json) (params : Json) : RenderSpec
  | formattedObj (formatter : String) (value : MontyObject) : RenderSpec

/-- Model of `monty_runtime::MontyEvalResult`.  Snapshots are opaque
tokens. -/
inductive MontyEvalResult where
  | complete (output : String) (result : Option MontyObject) : MontyEvalResult
  | hostCallNeeded (output : String) (functionName : String)
      (args : List MontyObject) (snapshot : Nat) : MontyEvalResult
  | error (msg : String) : MontyEvalResult

/-- The external Monty interpreter boundary: `monty_runtime::eval_python`
(context, code, optional last result), `monty_runtime::resume_with_result`
applied to `ExternalResult::Return` (the only variant the engine uses),
and the Display implementation of `MontyObject` used via `format!`. -/
structure MontyOracle where
  evalPython : String → String → Option MontyObject → MontyEvalResult
  resume : Nat → MontyObject → MontyEvalResult
  displayObj : MontyObject → String

/-- Characters considered whitespace by the embedding (space, tab,
carriage return, newline).  `str::trim` and `char::is_whitespace` in Rust
use the Unicode White_Space property, a superset; they agree on all ASCII
input.  The char-level definitions below are used instead of the
byte-position-based `String` library loops so that concrete runs reduce
inside the kernel. -/
def strTrim (s : String) : String :=
  String.mk (((s.data.dropWhile Char.isWhitespace).reverse.dropWhile
    Char.isWhitespace).reverse)

/-- `str::to_lowercase`, restricted to ASCII (`Char.toLower`). -/
def strToLower (s : String) : String :=
  String.mk (s.data.map Char.toLower)

/-! ## session.rs -/

/-- `session::is_ident_char`: ASCII letter, digit or underscore (the Rust
code uses `u8::is_ascii_alphanumeric`). -/
def isIdentChar (c : Char) : Bool :=
  c.isAlphanum || c = '_'

/-- Scanner state for `snippet_references_underscore`.  The Rust function
is a single index-based while loop with two inner skipping loops (string
literals and `#` comments); the embedding runs the same automaton one
character at a time.  `code prev` carries the previously consumed
character (`bytes[i - 1]`, `Option.none` at the start). -/
inductive ScanMode where
  | code (prev : Option Char) : ScanMode
  | strLit (quote : Char) : ScanMode
  | strEsc (quote : Char) : ScanMode
  | comment : ScanMode

/-- The loop of `session::snippet_references_underscore`.  In `strLit` the
closing quote returns to code mode (with the quote as previous character)
and a backslash skips the following character (`strEsc`); in `comment`
everything up to the newline is ignored, the newline itself being consumed
as ordinary code. -/
def scanUnderscore : ScanMode → List Char → Bool
  | _, [] => false
  | .strLit q, c :: rest =>
    if c = q then scanUnderscore (.code (some q)) rest
    else if c = '\\' then scanUnderscore (.strEsc q) rest
    else scanUnderscore (.strLit q) rest
  | .strEsc q, _ :: rest => scanUnderscore (.strLit q) rest
  | .comment, c :: rest =>
    if c = '\n' then scanUnderscore (.code (some '\n')) rest
    else scanUnderscore .comment rest
  | .code prev, c :: rest =>
    if c = '"' || c = '\'' then scanUnderscore (.strLit c) rest
    else if c = '#' then scanUnderscore .comment rest
    else if c = '_' then
      let beforeOk := match prev with
        | Option.none => true
        | some p => !isIdentChar p
      let afterOk := match rest with
        | [] => true
        | a :: _ => !isIdentChar a
      if beforeOk && afterOk then true
      else scanUnderscore (.code (some '_')) rest
    else scanUnderscore (.code (some c)) rest

/-- `session::snippet_references_underscore`: does the snippet use `_` as a
standalone identifier, ignoring string literals and `#` comments? -/
def snippetReferencesUnderscore (code : String) : Bool :=
  scanUnderscore (.code Option.none) code.data

/-- Model of `session::PendingMonty`: one paused continuation. -/
structure PendingMonty where
  callId : String
  snapshot : Nat
  outputSoFar : String
  originalSnippet : String
  method : String
  params : Json

/-- Model of `session::Session`. -/
structure Session where
  historyEntries : List String
  callCounter : Nat
  pendingMonty : Option PendingMonty
  pythonContext : List String
  lastResult : Option MontyObject

/-- `Session::new`. -/
def Session.new : Session :=
  { historyEntries := []
    callCounter := 0
    pendingMonty := Option.none
    pythonContext := []
    lastResult := Option.none }

/-- `Session::push_history`: record trimmed, non-empty input. -/
def Session.pushHistory (s : Session) (input : String) : Session :=
  let trimmed := strTrim input
  if trimmed = "" then s
  else { s with historyEntries := s.historyEntries ++ [trimmed] }

/-- `Session::next_call_id`: increment the `u64` counter and format
`call_<n>`.  Returns the fresh id together with the updated session. -/
def Session.nextCallId (s : Session) : String × Session :=
  let c := (s.callCounter + 1) % 2 ^ 64
  ("call_" ++ Nat.repr c, { s with callCounter := c })

/-- `Session::store_pending_monty` (unconditionally replaces). -/
def Session.storePendingMonty (s : Session) (p : PendingMonty) : Session :=
  { s with pendingMonty := some p }

/-- `Session::take_pending_monty`: remove and return the pending execution
only when its id matches. -/
def Session.takePendingMonty (s : Session) (callId : String) :
    Option PendingMonty × Session :=
  match s.pendingMonty with
  | some p =>
    if p.callId = callId then (some p, { s with pendingMonty := Option.none })
    else (Option.none, s)
  | Option.none => (Option.none, s)

/-- `Session::has_pending_monty`. -/
def Session.hasPendingMonty (s : Session) (callId : String) : Bool :=
  match s.pendingMonty with
  | some p => p.callId = callId
  | Option.none => false

/-- `Session::push_python_context`: record a successful snippet for replay
unless it references `_` as a standalone identifier. -/
def Session.pushPythonContext (s : Session) (code : String) : Session :=
  if snippetReferencesUnderscore code then s
  else { s with pythonContext := s.pythonContext ++ [code] }

/-- `Session::clear_python_context`. -/
def Session.clearPythonContext (s : Session) : Session :=
  { s with pythonContext := [] }

/-- `Session::set_last_result`. -/
def Session.setLastResult (s : Session) (obj : MontyObject) : Session :=
  { s with lastResult := some obj }

/-- `Session::python_context_prefix`: previously successful snippets joined
with newlines (empty string when there is no context). -/
def Session.pythonContextJoined (s : Session) : String :=
  if s.pythonContext = [] then ""
  else String.intercalate "\n" s.pythonContext

/-! ## magic.rs -/

/-- Model of `magic::MagicCommand`. -/
inductive MagicCommand where
  | ls (domain : Option String) : MagicCommand
  | get (entityId : String) : MagicCommand
  | find (pattern : String) : MagicCommand
  | hist (entityId : String) (hours : Option Nat) : MagicCommand
  | attrs (entityId : String) : MagicCommand
  | diff (entityA : String) (entityB : String) : MagicCommand
  | bundle (name : String) : MagicCommand
  | fmt (format : String) : MagicCommand
  | ask (question : String) : MagicCommand
  | help : MagicCommand
  | clear : MagicCommand

/-- Worker for `splitWhitespace`: accumulate the current word in reverse,
emit it at each whitespace run. -/
def splitWsGo (cur : List Char) : List Char → List String
  | [] => if cur = [] then [] else [String.mk cur.reverse]
  | c :: rest =>
    if c.isWhitespace then
      if cur = [] then splitWsGo [] rest
      else String.mk cur.reverse :: splitWsGo [] rest
    else splitWsGo (c :: cur) rest

/-- `str::split_whitespace`: whitespace-separated fragments, empty ones
dropped. -/
def splitWhitespace (s : String) : List String :=
  splitWsGo [] s.data

/-- Decimal digit run to a natural number (`None` when empty or
non-digit). -/
def digitsToNat (l : List Char) : Option Nat :=
  if l ≠ [] ∧ l.all Char.isDigit then
    some (l.foldl (fun a c => 10 * a + (c.toNat - 48)) 0)
  else Option.none

/-- `str::parse::<u32>` for the `%hist` hours argument: optional leading
plus sign, decimal digits, value below `2 ^ 32`. -/
def parseU32 (s : String) : Option Nat :=
  let digits := match s.data with
    | '+' :: rest => rest
    | l => l
  match digitsToNat digits with
  | some n => if n < 2 ^ 32 then some n else Option.none
  | Option.none => Option.none

/-- First character of a string, as a list head. -/
def firstChar (s : String) : Option Char :=
  s.data.head?

/-- `magic::parse_magic`. -/
def parseMagic (input : String) : Option MagicCommand :=
  let trimmed := strTrim input
  if trimmed = ":help" ∨ trimmed = ":h" then some .help
  else if trimmed = ":clear" ∨ trimmed = ":cls" then some .clear
  else if firstChar trimmed ≠ some '%' then Option.none
  else
    let parts := splitWhitespace (String.mk (trimmed.data.drop 1))
    match parts.head? with
    | Option.none => Option.none
    | some cmd =>
      if cmd = "ls" then some (.ls (parts.get? 1))
      else if cmd = "get" then (parts.get? 1).map .get
      else if cmd = "find" then (parts.get? 1).map .find
      else if cmd = "hist" then
        (parts.get? 1).map fun entityId =>
          let hours :=
            if parts.get? 2 = some "-h" then (parts.get? 3).bind parseU32
            else Option.none
          .hist entityId hours
      else if cmd = "bundle" then (parts.get? 1).map .bundle
      else if cmd = "fmt" then (parts.get? 1).map .fmt
      else if cmd = "attrs" ∨ cmd = "attributes" then (parts.get? 1).map .attrs
      else if cmd = "diff" ∨ cmd = "compare" then
        (parts.get? 1).bind fun a => (parts.get? 2).map fun b => .diff a b
      else if cmd = "ask" ∨ cmd = "assistant" then
        match trimmed.data.dropWhile (fun c => !c.isWhitespace) with
        | [] => Option.none
        | _ :: rest =>
          let question := strTrim (String.mk rest)
          if question = "" then Option.none else some (.ask question)
      else Option.none

/-- `magic::help_text`.  The full help text is static presentation
content; the embedding keeps only its first line. -/
def helpText : RenderSpec :=
  .help "Signal Deck — The oscilloscope for Home Assistant"

/-! ## engine.rs: pure helpers -/

/-- `engine::HA_DOMAINS`. -/
def haDomains : List String :=
  ["alarm_control_panel", "automation", "binary_sensor", "button", "calendar",
   "camera", "climate", "counter", "cover", "device_tracker", "fan", "group",
   "humidifier", "image", "input_boolean", "input_datetime", "input_number",
   "input_select", "input_text", "light", "lock", "media_player", "notify",
   "number", "person", "remote", "scene", "script", "select", "sensor",
   "siren", "sun", "switch", "timer", "todo", "tts", "update", "vacuum",
   "water_heater", "weather", "zone"]

/-- `engine::looks_like_entity_id`: split at the first dot; the part
before must be a known domain and the part after non-empty with only
alphanumeric or underscore characters.  (The Rust check is
`char::is_alphanumeric`; the embedding uses the ASCII predicate, which
agrees on all ASCII input.) -/
def looksLikeEntityId (input : String) : Bool :=
  let pre := input.data.takeWhile (fun c => c ≠ '.')
  match input.data.dropWhile (fun c => c ≠ '.') with
  | [] => false
  | _ :: post =>
    !pre.isEmpty && !post.isEmpty && haDomains.contains (String.mk pre) &&
      post.all (fun c => c.isAlphanum || c = '_')

/-- `engine::looks_like_domain`. -/
def looksLikeDomain (input : String) : Bool :=
  haDomains.contains input

/-- `engine::combine_output`. -/
def combineOutput (pre new : String) : String :=
  if pre = "" then new
  else if new = "" then pre
  else pre ++ new

/-- Model of `str::parse::<f64>` restricted to plain decimal literals
(optional sign, integer part, optional fractional part, at least one
digit), returned exactly as a rational.  The engine only feeds it the
number part of relative-time arguments; exotic float syntax (exponents,
inf, nan) is out of scope. -/
def parseFloatQ (s : String) : Option ℚ :=
  let (sign, l) : ℚ × List Char :=
    match s.data with
    | '-' :: rest => (-1, rest)
    | '+' :: rest => (1, rest)
    | l => (1, l)
  let intPart := l.takeWhile Char.isDigit
  match l.dropWhile Char.isDigit with
  | [] =>
    (digitsToNat intPart).map fun n => sign * n
  | '.' :: frac =>
    if frac.all Char.isDigit ∧ (intPart ≠ [] ∨ frac ≠ []) then
      let ip : ℚ := ((intPart.foldl (fun a c => 10 * a + (c.toNat - 48)) 0 : Nat) : ℚ)
      let fp : ℚ := ((frac.foldl (fun a c => 10 * a + (c.toNat - 48)) 0 : Nat) : ℚ)
      some (sign * (ip + fp / (10 : ℚ) ^ frac.length))
    else Option.none
  | _ => Option.none

/-- `f64::round`: round half away from zero. -/
def roundHalfAway (q : ℚ) : Int :=
  if 0 ≤ q then Rat.floor (q + 1 / 2) else Rat.ceil (q - 1 / 2)

/-- `f64 as i64`: truncation toward zero (saturation beyond the `i64`
range is out of scope for the finite values the engine produces). -/
def truncQ (q : ℚ) : Int :=
  if 0 ≤ q then Rat.floor q else Rat.ceil q

/-- `engine::parse_ago_to_monty`: turn an `ago()` argument such as
`"30m"`, `"6h"`, `"2d"`, `"1w"` into an hour count, minutes being
converted with a minimum of one hour; unparseable input falls back to 6.
(`str::to_lowercase` is modelled by the ASCII `String.toLower`; the
suffix is a single character in both.) -/
def parseAgoToMonty (args : List MontyObject) : MontyObject :=
  match args.head? with
  | some (.str s) =>
    let trimmed := strToLower (strTrim s)
    if trimmed = "" then .int 6
    else
      let isAlphaLast :=
        match trimmed.data.getLast? with
        | some c => c.isAlpha
        | Option.none => false
      let (numStr, suffix) : List Char × Option Char :=
        if isAlphaLast then (trimmed.data.dropLast, trimmed.data.getLast?)
        else (trimmed.data, some 'h')
      match parseFloatQ (String.mk numStr) with
      | Option.none => .int 6
      | some num =>
        let hours : ℚ :=
          match suffix with
          | some 'm' => max (num / 60) 1
          | some 'h' => num
          | some 'd' => num * 24
          | some 'w' => num * 168
          | _ => num
        .int (roundHalfAway hours)
  | some (.int n) => .int n
  | some (.float f) => .int (truncQ f)
  | _ => .int 6

/-! ## monty_runtime.rs: call router and value bridge -/

/-- First argument as entity-id-like string: a string argument is used
verbatim, any other value via its Display form (`format!`). -/
def argAsString (display : MontyObject → String) (arg : Option MontyObject) : String :=
  match arg with
  | some (.str s) => s
  | some other => display other
  | Option.none => ""

/-- An optional string argument (`and_then` on the `String` variant). -/
def argAsOptString (arg : Option MontyObject) : Option String :=
  match arg with
  | some (.str s) => some s
  | _ => Option.none

/-- An optional hour-count argument: integers verbatim, floats truncated,
anything else absent. -/
def argAsHours (arg : Option MontyObject) : Option Int :=
  match arg with
  | some (.int n) => some n
  | some (.float f) => some (truncQ f)
  | _ => Option.none

mutual

/-- `monty_runtime::monty_obj_to_json` (with its list and dict-pair
traversals split out as mutual workers). -/
def montyObjToJson (display : MontyObject → String) : MontyObject → Json
  | .none => .null
  | .bool b => .bool b
  | .int n => .num n
  | .float f => .num f
  | .str s => .str s
  | .list items => .arr (montyListToJson display items)
  | .dict pairs => .obj (montyPairsToJson display pairs)
  | .tuple items => .arr (montyListToJson display items)
  | other => .str (display other)

def montyListToJson (display : MontyObject → String) :
    List MontyObject → List Json
  | [] => []
  | a :: rest => montyObjToJson display a :: montyListToJson display rest

def montyPairsToJson (display : MontyObject → String) :
    List (MontyObject × MontyObject) → List (String × Json)
  | [] => []
  | (k, v) :: rest =>
    (match k with
     | .str s => s
     | other => display other,
     montyObjToJson display v) :: montyPairsToJson display rest

end

mutual

/-- `monty_runtime::json_to_monty_obj`.  A JSON number becomes an `Int`
when `as_i64` succeeds (integral and inside the `i64` range), otherwise a
float. -/
def jsonToMontyObj : Json → MontyObject
  | .null => .none
  | .bool b => .bool b
  | .num q =>
    if q.den = 1 ∧ -(2 ^ 63) ≤ q.num ∧ q.num < 2 ^ 63 then .int q.num
    else .float q
  | .str s => .str s
  | .arr items => .list (jsonListToMonty items)
  | .obj fields => .dict (jsonFieldsToMonty fields)

def jsonListToMonty : List Json → List MontyObject
  | [] => []
  | a :: rest => jsonToMontyObj a :: jsonListToMonty rest

def jsonFieldsToMonty : List (String × Json) → List (MontyObject × MontyObject)
  | [] => []
  | (k, v) :: rest => (.str k, jsonToMontyObj v) :: jsonFieldsToMonty rest

end

/-- `monty_runtime::map_ext_call_to_host_call`: route an external function
pause to a host method and JSON parameters, or `None` for locally handled
or unknown functions. -/
def mapExtCallToHostCall (display : MontyObject → String)
    (functionName : String) (args : List MontyObject) :
    Option (String × Json) :=
  if functionName = "state" then
    some ("get_state", .obj [("entity_id", .str (argAsString display args.head?))])
  else if functionName = "states" then
    let params : Json := match argAsOptString args.head? with
      | some d => .obj [("domain", .str d)]
      | Option.none => .obj []
    some ("get_states", params)
  else if functionName = "history" then
    let hours := (argAsHours (args.get? 1)).getD 6
    some ("get_history", .obj [("entity_id", .str (argAsString display args.head?)),
                               ("hours", .num hours)])
  else if functionName = "call_service" then
    let dataJson := ((args.get? 2).map (montyObjToJson display)).getD (.obj [])
    some ("call_service", .obj [("domain", .str (argAsString display args.head?)),
                                ("service", .str (argAsString display (args.get? 1))),
                                ("service_data", dataJson)])
  else if functionName = "show" then Option.none
  else if functionName = "room" then
    some ("get_area_entities", .obj [("area", .str (argAsString display args.head?))])
  else if functionName = "rooms" then some ("get_areas", .obj [])
  else if functionName = "statistics" then
    let hours := (argAsHours (args.get? 1)).getD 24
    let period := match argAsOptString (args.get? 2) with
      | some p => p
      | Option.none =>
        if hours ≤ 6 then "5minute" else if hours ≤ 72 then "hour" else "day"
    some ("get_statistics", .obj [("entity_id", .str (argAsString display args.head?)),
                                  ("hours", .num hours),
                                  ("period", .str period)])
  else if functionName = "ago" then Option.none
  else if functionName = "logbook" then
    let hours := (argAsHours (args.get? 1)).getD 6
    some ("get_logbook", .obj [("entity_id", .str (argAsString display args.head?)),
                               ("hours", .num hours)])
  else if functionName = "template" then
    some ("render_template", .obj [("template", .str (argAsString display args.head?))])
  else if functionName = "traces" then
    match argAsOptString args.head? with
    | some id => some ("get_trace", .obj [("automation_id", .str id)])
    | Option.none => some ("list_traces", .obj [])
  else if functionName = "devices" then
    match argAsOptString args.head? with
    | some q => some ("get_devices", .obj [("query", .str q)])
    | Option.none => some ("get_devices", .obj [])
  else if functionName = "entities" then
    some ("get_entity_entry", .obj [("entity_id", .str (argAsString display args.head?))])
  else if functionName = "check_config" then some ("check_config", .obj [])
  else if functionName = "error_log" then some ("get_error_log", .obj [])
  else if functionName = "now" then some ("get_datetime", .obj [])
  else if functionName = "services" then
    match argAsOptString args.head? with
    | some d => some ("get_services", .obj [("domain", .str d)])
    | Option.none => some ("get_services", .obj [])
  else Option.none

/-- States treated as logically on (`monty_runtime::json_to_entity_state`). -/
def isOnState (state : String) : Bool :=
  state = "on" ∨ state = "home" ∨ state = "open" ∨ state = "playing" ∨
    state = "active"

/-- States treated as logically off. -/
def isOffState (state : String) : Bool :=
  state = "off" ∨ state = "not_home" ∨ state = "closed" ∨ state = "idle" ∨
    state = "paused" ∨ state = "standby"

/-- `str::split_once('.')` on the entity id: the parts before and after
the first dot, or `None` when there is no dot. -/
def splitOnceDot (s : String) : Option (String × String) :=
  match s.data.dropWhile (fun c => c ≠ '.') with
  | [] => Option.none
  | _ :: post => some (String.mk (s.data.takeWhile (fun c => c ≠ '.')), String.mk post)

/-- String field of a JSON object, with a default. -/
def jsonStrField (value : Json) (key dflt : String) : String :=
  ((value.getKey key).bind Json.asStr).getD dflt

/-- `monty_runtime::json_to_entity_state`: a Home Assistant entity JSON as
a frozen `EntityState` dataclass with derived domain, object id, friendly
name and on/off flags. -/
def jsonToEntityState (value : Json) : MontyObject :=
  let entityId := jsonStrField value "entity_id" ""
  let state := jsonStrField value "state" ""
  let lastChanged := jsonStrField value "last_changed" ""
  let lastUpdated := jsonStrField value "last_updated" ""
  let (domain, objectId) := match splitOnceDot entityId with
    | some (d, o) => (d, o)
    | Option.none => ("", entityId)
  let friendlyName :=
    (((value.getKey "attributes").bind fun a => a.getKey "friendly_name").bind
      Json.asStr).getD entityId
  let isOn := isOnState state
  let isOff := isOffState state
  let attributes := ((value.getKey "attributes")).getD (.obj [])
  let attrsObj := jsonToMontyObj attributes
  .dataclass "EntityState"
    ["entity_id", "state", "attributes", "last_changed", "last_updated",
     "domain", "object_id", "name", "is_on", "is_off"]
    [(.str "entity_id", .str entityId),
     (.str "state", .str state),
     (.str "attributes", attrsObj),
     (.str "last_changed", .str lastChanged),
     (.str "last_updated", .str lastUpdated),
     (.str "domain", .str domain),
     (.str "object_id", .str objectId),
     (.str "name", .str friendlyName),
     (.str "is_on", .bool isOn),
     (.str "is_off", .bool isOff)]
    true

/-- `monty_runtime::json_to_entity_state_list`. -/
def jsonToEntityStateList (value : Json) : MontyObject :=
  match value with
  | .arr items => .list (items.map jsonToEntityState)
  | _ => .list []

/-! ## engine.rs: rendering and the evaluation state machine -/

/-- Is the object an `EntityState` dataclass? -/
def isEntityState : MontyObject → Bool
  | .dataclass name _ _ _ => name = "EntityState"
  | _ => false

/-- The `if specs.len() == 1 .. else vstack` pattern used throughout the
engine (zero or several specs become a vstack). -/
def oneOrVstack (specs : List RenderSpec) : RenderSpec :=
  match specs with
  | [spec] => spec
  | _ => .vstack specs

/-- Comma-joined list of strings (worker for the JSON serializer). -/
def joinComma : List String → String
  | [] => ""
  | [x] => x
  | x :: rest => x ++ "," ++ joinComma rest

/-- Newline-joined list of strings (`slice::join("\n")`). -/
def joinNewline : List String → String
  | [] => ""
  | [x] => x
  | x :: rest => x ++ "\n" ++ joinNewline rest

mutual

/-- Stand-in for `serde_json::to_string_pretty` (external library; its
whitespace layout is presentation-only and modelled as compact JSON). -/
def prettyJson : Json → String
  | .null => "null"
  | .bool b => cond b "true" "false"
  | .num q => Int.repr q.num ++ (if q.den = 1 then "" else "/" ++ Nat.repr q.den)
  | .str s => "\"" ++ s ++ "\""
  | .arr items => "[" ++ joinComma (prettyJsonList items) ++ "]"
  | .obj fields => "\x7b" ++ joinComma (prettyJsonFields fields) ++ "\x7d"

def prettyJsonList : List Json → List String
  | [] => []
  | a :: rest => prettyJson a :: prettyJsonList rest

def prettyJsonFields : List (String × Json) → List String
  | [] => []
  | (k, v) :: rest => ("\"" ++ k ++ "\":" ++ prettyJson v) :: prettyJsonFields rest

end

/-- `engine::format_monty_show`: rich rendering for `EntityState` values
and lists of them, Display text for everything else. -/
def formatMontyShow (display : MontyObject → String) (obj : MontyObject) :
    RenderSpec :=
  match obj with
  | .dataclass name _ _ _ =>
    if name = "EntityState" then .formattedObj "format_entity_state_card" obj
    else .text (display obj)
  | .list items =>
    if !items.isEmpty && items.all isEntityState then
      .formattedObj "format_entity_state_table" obj
    else .text (display obj)
  | other => .text (display other)

/-- `engine::format_host_response`: dispatch a host JSON payload to the
presentation formatter (history table, entity table, statistics,
entity card) or fall back to a copyable JSON block. -/
def formatHostResponse (value : Json) : RenderSpec :=
  let arrCase : Option RenderSpec :=
    match value with
    | .arr items =>
      match items with
      | [] => some (.text "No results.")
      | first :: _ =>
        match first with
        | .arr _ => some (.formattedJson "format_history_response" value .null)
        | _ =>
          if (first.getKey "entity_id").isSome then
            some (.formattedJson "format_entity_table" value .null)
          else Option.none
    | _ => Option.none
  match arrCase with
  | some spec => spec
  | Option.none =>
    let statsCase : Bool :=
      match value with
      | .obj fields =>
        match fields.head? with
        | some (_, .arr (firstItem :: _)) =>
          (firstItem.getKey "start").isSome && (firstItem.getKey "end").isSome
        | _ => false
      | _ => false
    if statsCase then .formattedJson "format_statistics_response" value .null
    else if (value.getKey "entity_id").isSome then
      .formattedJson "format_entity_card" value .null
    else .copyable (prettyJson value) (some "JSON")

/-- `engine::build_chart` (chart construction is presentation-only; the
node keeps the chart function name and its arguments). -/
def buildChart (functionName : String) (args : List MontyObject) : RenderSpec :=
  .formattedObj ("build_chart:" ++ functionName) (.list args)

/-- The chart functions handled locally by the engine. -/
def chartFunctionNames : List String :=
  ["plot_line", "plot_bar", "plot_pie", "plot_series"]

/-- `engine::render_complete`: store the result as the `_` last result,
then emit output text plus either a rich entity rendering or a plain
`→ value` line. -/
def renderComplete (display : MontyObject → String) (s : Session)
    (output : String) (result : Option MontyObject) : RenderSpec × Session :=
  let s := match result with
    | some obj => s.setLastResult obj
    | Option.none => s.setLastResult .none
  let outSpecs := if output = "" then [] else [RenderSpec.text output]
  let resSpecs := match result with
    | some obj =>
      match obj with
      | .dataclass name _ _ _ =>
        if name = "EntityState" then [formatMontyShow display obj]
        else [RenderSpec.text ("→ " ++ display obj)]
      | .list items =>
        if !items.isEmpty && items.all isEntityState then
          [formatMontyShow display obj]
        else [RenderSpec.text ("→ " ++ display obj)]
      | _ => [RenderSpec.text ("→ " ++ display obj)]
    | Option.none => []
  match outSpecs ++ resSpecs with
  | [] => (.text "", s)
  | [spec] => (spec, s)
  | specs => (.vstack specs, s)

/-- Sentinel for exhausted resumption fuel: the Rust code recurses
unboundedly on chained locally-resolved `ago` pauses; theorems always
supply enough fuel for this branch to be unreachable. -/
def fuelExhaustedMsg : String :=
  "local resumption fuel exhausted (model artifact)"

/-- `engine::handle_monty_eval_result`: classify a fresh or resumed
interpreter result — commit and render on completion, handle `show`,
chart and `ago` pauses locally, store a pending call for host-bound
pauses, surface errors. -/
def handleMontyEvalResult (O : MontyOracle) :
    Nat → Session → String → String → MontyEvalResult → RenderSpec × Session
  | _, s, input, prefixOut, .complete output res =>
    let s := s.pushPythonContext input
    renderComplete O.displayObj s (combineOutput prefixOut output) res
  | fuel, s, input, prefixOut, .hostCallNeeded output functionName args snapshot =>
    let combined := combineOutput prefixOut output
    if functionName = "show" then
      let s := s.pushPythonContext input
      let s := match args.head? with
        | some a => s.setLastResult a
        | Option.none => s
      let specs := (if combined = "" then [] else [RenderSpec.text combined]) ++
        (match args.head? with
         | some a => [formatMontyShow O.displayObj a]
         | Option.none => [])
      (oneOrVstack specs, s)
    else if chartFunctionNames.contains functionName then
      let s := s.pushPythonContext input
      let specs := (if combined = "" then [] else [RenderSpec.text combined]) ++
        [buildChart functionName args]
      (oneOrVstack specs, s)
    else if functionName = "ago" then
      match fuel with
      | 0 => (.error fuelExhaustedMsg, s)
      | fuel + 1 =>
        let resumeResult := O.resume snapshot (parseAgoToMonty args)
        handleMontyEvalResult O fuel s input combined resumeResult
    else
      match mapExtCallToHostCall O.displayObj functionName args with
      | some (method, params) =>
        let (callId, s1) := s.nextCallId
        let s2 := s1.storePendingMonty
          { callId := callId, snapshot := snapshot, outputSoFar := combined,
            originalSnippet := input, method := method, params := params }
        (.hostCall callId method params, s2)
      | Option.none => (.error ("Unknown function: " ++ functionName), s)
  | _, s, _, prefixOut, .error msg =>
    let specs := (if prefixOut = "" then [] else [RenderSpec.text prefixOut]) ++
      [RenderSpec.error msg]
    (oneOrVstack specs, s)

/-- Manual equation lemma: `handle_monty_eval_result` on a completion
(the definition recurses on fuel, so the equations are stated per result
constructor and proved by fuel case analysis). -/
theorem handleMontyEvalResult_complete (O : MontyOracle) (fuel : Nat)
    (s : Session) (input prefixOut output : String)
    (res : Option MontyObject) :
    handleMontyEvalResult O fuel s input prefixOut (.complete output res) =
      renderComplete O.displayObj (s.pushPythonContext input)
        (combineOutput prefixOut output) res := by
  cases fuel <;> rfl

/-- Manual equation lemma: `handle_monty_eval_result` on a pause. -/
theorem handleMontyEvalResult_pause (O : MontyOracle) (fuel : Nat)
    (s : Session) (input prefixOut output functionName : String)
    (args : List MontyObject) (snapshot : Nat) :
    handleMontyEvalResult O fuel s input prefixOut
        (.hostCallNeeded output functionName args snapshot) =
      (let combined := combineOutput prefixOut output
       if functionName = "show" then
         let s := s.pushPythonContext input
         let s := match args.head? with
           | some a => s.setLastResult a
           | Option.none => s
         let specs := (if combined = "" then [] else [RenderSpec.text combined]) ++
           (match args.head? with
            | some a => [formatMontyShow O.displayObj a]
            | Option.none => [])
         (oneOrVstack specs, s)
       else if chartFunctionNames.contains functionName then
         let s := s.pushPythonContext input
         let specs := (if combined = "" then [] else [RenderSpec.text combined]) ++
           [buildChart functionName args]
         (oneOrVstack specs, s)
       else if functionName = "ago" then
         match fuel with
         | 0 => (.error fuelExhaustedMsg, s)
         | fuel + 1 =>
           handleMontyEvalResult O fuel s input combined
             (O.resume snapshot (parseAgoToMonty args))
       else
         match mapExtCallToHostCall O.displayObj functionName args with
         | some (method, params) =>
           let (callId, s1) := s.nextCallId
           let s2 := s1.storePendingMonty
             { callId := callId, snapshot := snapshot, outputSoFar := combined,
               originalSnippet := input, method := method, params := params }
           (.hostCall callId method params, s2)
         | Option.none => (.error ("Unknown function: " ++ functionName), s)) := by
  cases fuel <;> rfl

/-- Manual equation lemma: `handle_monty_eval_result` on an error. -/
theorem handleMontyEvalResult_error (O : MontyOracle) (fuel : Nat)
    (s : Session) (input prefixOut msg : String) :
    handleMontyEvalResult O fuel s input prefixOut (.error msg) =
      (oneOrVstack ((if prefixOut = "" then [] else [RenderSpec.text prefixOut]) ++
        [RenderSpec.error msg]), s) := by
  cases fuel <;> rfl

/-- `engine::eval_python`: evaluate under the accumulated context prefix;
on error with non-empty context retry without the prefix, clearing the
context when the retry does not error, otherwise keeping the context and
the original error. -/
def evalPythonEngine (O : MontyOracle) (fuel : Nat) (s : Session)
    (input : String) : RenderSpec × Session :=
  let context := s.pythonContextJoined
  let lastResult := s.lastResult
  let result := O.evalPython context input lastResult
  match result with
  | .error msg =>
    if context ≠ "" then
      let retry := O.evalPython "" input lastResult
      match retry with
      | .error _ => handleMontyEvalResult O fuel s input "" (.error msg)
      | _ => handleMontyEvalResult O fuel s.clearPythonContext input "" retry
    else handleMontyEvalResult O fuel s input "" (.error msg)
  | _ => handleMontyEvalResult O fuel s input "" result

/-- `engine::dispatch_magic`. -/
def dispatchMagic (s : Session) : MagicCommand → RenderSpec × Session
  | .help => (helpText, s)
  | .clear => (.text "\x1b[clear]", s)
  | .ls domain =>
    let (callId, s) := s.nextCallId
    let params : Json := match domain with
      | some d => .obj [("domain", .str d)]
      | Option.none => .obj []
    (.hostCall callId "get_states" params, s)
  | .get entityId =>
    let (callId, s) := s.nextCallId
    (.hostCall callId "get_state" (.obj [("entity_id", .str entityId)]), s)
  | .find pattern =>
    let (callId, s) := s.nextCallId
    (.hostCall callId "find_entities" (.obj [("pattern", .str pattern)]), s)
  | .hist entityId hours =>
    let (callId, s) := s.nextCallId
    (.hostCall callId "get_history"
      (.obj [("entity_id", .str entityId),
             ("hours", .num ((hours.getD 6 : Nat) : Int))]), s)
  | .attrs entityId =>
    let (callId, s) := s.nextCallId
    (.hostCall callId "get_state"
      (.obj [("entity_id", .str entityId), ("attrs_only", .bool true)]), s)
  | .diff entityA entityB =>
    let (callId, s) := s.nextCallId
    (.hostCall callId "get_diff"
      (.obj [("entity_a", .str entityA), ("entity_b", .str entityB)]), s)
  | .bundle name =>
    (.error ("Bundle \x27" ++ name ++ "\x27 not found"), s)
  | .fmt format =>
    (.text ("Output format set to: " ++ format), s)
  | .ask question =>
    let recent := (s.historyEntries.reverse.take 10)
    let context :=
      if recent.isEmpty then ""
      else "Recent shell commands:\n" ++ joinNewline recent.reverse
    let (callId, s) := s.nextCallId
    (.hostCall callId "conversation_process"
      (.obj [("text", .str question), ("context", .str context)]), s)

/-- `engine::eval`: trim, record history, try magic commands, auto-resolve
bare entity ids and domain names, otherwise evaluate as Python. -/
def evalEngine (O : MontyOracle) (fuel : Nat) (s : Session) (input : String) :
    RenderSpec × Session :=
  let trimmed := strTrim input
  if trimmed = "" then (.text "", s)
  else
    let s := s.pushHistory trimmed
    match parseMagic trimmed with
    | some cmd => dispatchMagic s cmd
    | Option.none =>
      if looksLikeEntityId trimmed then dispatchMagic s (.get trimmed)
      else if looksLikeDomain trimmed then dispatchMagic s (.ls (some trimmed))
      else evalPythonEngine O fuel s trimmed

/-- Response-shape selection in `engine::fulfill_monty_host_call`: typed
`EntityState` conversion for state, state-list and area responses, generic
conversion otherwise. -/
def convertMontyValue (method : String) (jsonValue : Json) : MontyObject :=
  if method = "get_state" then jsonToEntityState jsonValue
  else if method = "get_states" then jsonToEntityStateList jsonValue
  else if method = "get_area_entities" then
    match jsonValue.getKey "entities" with
    | some entities => jsonToEntityStateList entities
    | Option.none => jsonToMontyObj jsonValue
  else jsonToMontyObj jsonValue

/-- Methods auto-visualized after a fulfilled Monty completion. -/
def vizMethods : List String :=
  ["get_history", "get_statistics", "get_logbook", "get_services",
   "get_datetime", "get_trace", "list_traces"]

/-- The visualization spec chosen per method after a fulfilled
completion. -/
def vizSpecFor (method : String) (jsonValue : Json) (params : Json) :
    RenderSpec :=
  if method = "get_logbook" then .formattedJson "format_logbook_response" jsonValue params
  else if method = "get_services" then .formattedJson "format_services_response" jsonValue .null
  else if method = "get_datetime" then .formattedJson "format_datetime_response" jsonValue .null
  else if method = "get_trace" ∨ method = "list_traces" then
    .formattedJson "format_traces_response" jsonValue params
  else formatHostResponse jsonValue

/-- `engine::handle_monty_resumed_result`: classification of results after
a locally-resolved resumption in the chained host-call context (like
`fulfill_monty_host_call`, but without a `PendingMonty` in hand). -/
def handleMontyResumedResult (O : MontyOracle) :
    Nat → Session → String → String → MontyEvalResult → RenderSpec × Session
  | _, s, _, prefixOut, .complete output res =>
    renderComplete O.displayObj s (combineOutput prefixOut output) res
  | fuel, s, originalSnippet, prefixOut,
      .hostCallNeeded output functionName args snapshot =>
    let combined := combineOutput prefixOut output
    if functionName = "show" then
      let s := match args.head? with
        | some a => s.setLastResult a
        | Option.none => s
      let specs := (if combined = "" then [] else [RenderSpec.text combined]) ++
        (match args.head? with
         | some a => [formatMontyShow O.displayObj a]
         | Option.none => [])
      (oneOrVstack specs, s)
    else if chartFunctionNames.contains functionName then
      let specs := (if combined = "" then [] else [RenderSpec.text combined]) ++
        [buildChart functionName args]
      (oneOrVstack specs, s)
    else if functionName = "ago" then
      match fuel with
      | 0 => (.error fuelExhaustedMsg, s)
      | fuel + 1 =>
        let resumeResult := O.resume snapshot (parseAgoToMonty args)
        handleMontyResumedResult O fuel s originalSnippet combined resumeResult
    else
      match mapExtCallToHostCall O.displayObj functionName args with
      | some (method, params) =>
        let (newCallId, s1) := s.nextCallId
        let s2 := s1.storePendingMonty
          { callId := newCallId, snapshot := snapshot, outputSoFar := combined,
            originalSnippet := originalSnippet, method := method,
            params := params }
        (.hostCall newCallId method params, s2)
      | Option.none => (.error ("Unknown function: " ++ functionName), s)
  | _, s, _, prefixOut, .error msg =>
    let specs := (if prefixOut = "" then [] else [RenderSpec.text prefixOut]) ++
      [RenderSpec.error msg]
    (oneOrVstack specs, s)

/-- Manual equation lemma: `handle_monty_resumed_result` on a completion. -/
theorem handleMontyResumedResult_complete (O : MontyOracle) (fuel : Nat)
    (s : Session) (originalSnippet prefixOut output : String)
    (res : Option MontyObject) :
    handleMontyResumedResult O fuel s originalSnippet prefixOut
        (.complete output res) =
      renderComplete O.displayObj s (combineOutput prefixOut output) res := by
  cases fuel <;> rfl

/-- Manual equation lemma: `handle_monty_resumed_result` on a pause. -/
theorem handleMontyResumedResult_pause (O : MontyOracle) (fuel : Nat)
    (s : Session) (originalSnippet prefixOut output functionName : String)
    (args : List MontyObject) (snapshot : Nat) :
    handleMontyResumedResult O fuel s originalSnippet prefixOut
        (.hostCallNeeded output functionName args snapshot) =
      (let combined := combineOutput prefixOut output
       if functionName = "show" then
         let s := match args.head? with
           | some a => s.setLastResult a
           | Option.none => s
         let specs := (if combined = "" then [] else [RenderSpec.text combined]) ++
           (match args.head? with
            | some a => [formatMontyShow O.displayObj a]
            | Option.none => [])
         (oneOrVstack specs, s)
       else if chartFunctionNames.contains functionName then
         let specs := (if combined = "" then [] else [RenderSpec.text combined]) ++
           [buildChart functionName args]
         (oneOrVstack specs, s)
       else if functionName = "ago" then
         match fuel with
         | 0 => (.error fuelExhaustedMsg, s)
         | fuel + 1 =>
           handleMontyResumedResult O fuel s originalSnippet combined
             (O.resume snapshot (parseAgoToMonty args))
       else
         match mapExtCallToHostCall O.displayObj functionName args with
         | some (method, params) =>
           let (newCallId, s1) := s.nextCallId
           let s2 := s1.storePendingMonty
             { callId := newCallId, snapshot := snapshot,
               outputSoFar := combined, originalSnippet := originalSnippet,
               method := method, params := params }
           (.hostCall newCallId method params, s2)
         | Option.none => (.error ("Unknown function: " ++ functionName), s)) := by
  cases fuel <;> rfl

/-- Manual equation lemma: `handle_monty_resumed_result` on an error. -/
theorem handleMontyResumedResult_error (O : MontyOracle) (fuel : Nat)
    (s : Session) (originalSnippet prefixOut msg : String) :
    handleMontyResumedResult O fuel s originalSnippet prefixOut (.error msg) =
      (oneOrVstack ((if prefixOut = "" then [] else [RenderSpec.text prefixOut]) ++
        [RenderSpec.error msg]), s) := by
  cases fuel <;> rfl

/-- `engine::fulfill_monty_host_call`: take the matching pending
continuation, convert the host JSON by method, resume, then classify the
resumed result (completion with optional auto-visualization, a further
pause, or an error). -/
def fulfillMontyHostCall (O : MontyOracle) (fuel : Nat) (s : Session)
    (callId : String) (parsed : Except String Json) : RenderSpec × Session :=
  match s.takePendingMonty callId with
  | (Option.none, s) => (.error "No pending Monty execution found.", s)
  | (some pending, s) =>
    match parsed with
    | .error e => (.error ("Failed to parse host response: " ++ e), s)
    | .ok jsonValue =>
      let montyValue := convertMontyValue pending.method jsonValue
      let result := O.resume pending.snapshot montyValue
      match result with
      | .complete output res =>
        let fullOutput := combineOutput pending.outputSoFar output
        let s := match res with
          | some obj => s.setLastResult obj
          | Option.none => s.setLastResult .none
        if vizMethods.contains pending.method then
          let specs := (if fullOutput = "" then [] else [RenderSpec.text fullOutput]) ++
            [vizSpecFor pending.method jsonValue pending.params]
          (oneOrVstack specs, s)
        else renderComplete O.displayObj s fullOutput res
      | .hostCallNeeded output functionName args snapshot =>
        let combined := combineOutput pending.outputSoFar output
        if functionName = "show" then
          let s := match args.head? with
            | some a => s.setLastResult a
            | Option.none => s
          let specs := (if combined = "" then [] else [RenderSpec.text combined]) ++
            (match args.head? with
             | some a => [formatMontyShow O.displayObj a]
             | Option.none => [])
          (oneOrVstack specs, s)
        else if chartFunctionNames.contains functionName then
          let specs := (if combined = "" then [] else [RenderSpec.text combined]) ++
            [buildChart functionName args]
          (oneOrVstack specs, s)
        else if functionName = "ago" then
          let resumeResult := O.resume snapshot (parseAgoToMonty args)
          handleMontyResumedResult O fuel s pending.originalSnippet combined
            resumeResult
        else
          match mapExtCallToHostCall O.displayObj functionName args with
          | some (method, params) =>
            let (newCallId, s1) := s.nextCallId
            let s2 := s1.storePendingMonty
              { callId := newCallId, snapshot := snapshot,
                outputSoFar := combined,
                originalSnippet := pending.originalSnippet, method := method,
                params := params }
            (.hostCall newCallId method params, s2)
          | Option.none => (.error ("Unknown function: " ++ functionName), s)
      | .error msg =>
        let specs :=
          (if pending.outputSoFar = "" then []
           else [RenderSpec.text pending.outputSoFar]) ++ [RenderSpec.error msg]
        (oneOrVstack specs, s)

/-- `engine::fulfill_host_call`: resume a matching pending Monty
execution, otherwise treat the payload as a magic-command host response
(conversation, diff, attrs or generic formatting). -/
def fulfillHostCall (O : MontyOracle) (fuel : Nat) (s : Session)
    (callId : String) (parsed : Except String Json) : RenderSpec × Session :=
  if s.hasPendingMonty callId then fulfillMontyHostCall O fuel s callId parsed
  else
    match parsed with
    | .ok value =>
      if (value.getKey "__conversation").isSome then
        let response := jsonStrField value "response" ""
        let agent := jsonStrField value "agent_id" "unknown"
        (.assistant response agent, s)
      else if (value.getKey "__diff").isSome then
        (.formattedJson "format_diff_response" value .null, s)
      else if (value.getKey "__attrs_only").isSome then
        (.formattedJson "format_attrs_response" value .null, s)
      else (formatHostResponse value, s)
    | .error e => (.error ("Failed to parse host response: " ++ e), s)

/-! ## Decimal representation of call counters

`Session::next_call_id` formats the counter with `format!("call_{}", n)`;
the lemmas below relate `Nat.repr` to an explicit digit list so that
distinctness and monotonicity of issued ids can be proved. -/

/-- Decimal digits of `n`, most significant first. -/
def natToChars (n : Nat) : List Char :=
  if h : n < 10 then [Nat.digitChar n]
  else natToChars (n / 10) ++ [Nat.digitChar (n % 10)]
  termination_by n
  decreasing_by exact Nat.div_lt_self (by omega) (by omega)

theorem toDigitsCore_eq_natToChars :
    ∀ (f n : Nat) (acc : List Char), n < f →
      Nat.toDigitsCore 10 f n acc = natToChars n ++ acc := by
  intro f
  induction f with
  | zero => intro n acc h; omega
  | succ f ih =>
    intro n acc h
    show (if n / 10 = 0 then Nat.digitChar (n % 10) :: acc
          else Nat.toDigitsCore 10 f (n / 10) (Nat.digitChar (n % 10) :: acc)) =
        natToChars n ++ acc
    by_cases h10 : n / 10 = 0
    · have hn : n < 10 := by omega
      rw [if_pos h10, natToChars, dif_pos hn, Nat.mod_eq_of_lt hn]
      simp
    · have hn : ¬ n < 10 := by
        intro hcon
        exact h10 (Nat.div_eq_of_lt hcon)
      have hdiv : n / 10 < n := Nat.div_lt_self (by omega) (by omega)
      have hlt : n / 10 < f := by omega
      rw [if_neg h10, ih (n / 10) (Nat.digitChar (n % 10) :: acc) hlt]
      conv_rhs => rw [natToChars]
      rw [dif_neg hn]
      simp

theorem repr_data_eq_natToChars (n : Nat) : (Nat.repr n).data = natToChars n := by
  show ((Nat.toDigits 10 n).asString).data = natToChars n
  unfold Nat.toDigits
  rw [toDigitsCore_eq_natToChars (n + 1) n [] (Nat.lt_succ_self n)]
  simp [List.asString]

/-- Decode a decimal digit list back into a natural number. -/
def decodeNat (l : List Char) : Nat :=
  l.foldl (fun a c => 10 * a + (c.toNat - 48)) 0

theorem digitChar_toNat_sub (d : Nat) (h : d < 10) :
    (Nat.digitChar d).toNat - 48 = d := by
  interval_cases d <;> decide

theorem foldl_natToChars (n : Nat) :
    ∀ a : Nat,
      (natToChars n).foldl (fun x c => 10 * x + (c.toNat - 48)) a =
        a * 10 ^ (natToChars n).length + n := by
  induction n using Nat.strong_induction_on with
  | _ n ih =>
    intro a
    by_cases h : n < 10
    · rw [natToChars, dif_pos h]
      simp [List.foldl, digitChar_toNat_sub n h]
      ring
    · rw [natToChars, dif_neg h]
      have h1 : n / 10 < n := Nat.div_lt_self (by omega) (by omega)
      rw [List.foldl_append, ih (n / 10) h1 a]
      have hm : n % 10 < 10 := Nat.mod_lt _ (by omega)
      simp [List.foldl, digitChar_toNat_sub (n % 10) hm]
      have hdm : 10 * (n / 10) + n % 10 = n := Nat.div_add_mod n 10
      ring_nf
      omega

theorem decodeNat_natToChars (n : Nat) : decodeNat (natToChars n) = n := by
  have := foldl_natToChars n 0
  simpa [decodeNat] using this

/-- Numeric component of a call id: decode the digits after `call_`. -/
def callIdNum (id : String) : Nat :=
  decodeNat (id.data.drop 5)

theorem callIdNum_call (k : Nat) : callIdNum ("call_" ++ Nat.repr k) = k := by
  have hdata : ("call_" ++ Nat.repr k).data = "call_".data ++ (Nat.repr k).data := rfl
  unfold callIdNum
  rw [hdata, repr_data_eq_natToChars]
  have h5 : ("call_".data).length = 5 := rfl
  rw [← h5, List.drop_left, decodeNat_natToChars]

/-- Issue `n` call ids in a row (`Session::next_call_id` iterated),
returning them in issuance order with the final session. -/
def issueCalls (s : Session) : Nat → List String × Session
  | 0 => ([], s)
  | n + 1 =>
    let (id, s1) := s.nextCallId
    let (ids, s2) := issueCalls s1 n
    (id :: ids, s2)

theorem nextCallId_eq (s : Session) (h : s.callCounter + 1 < 2 ^ 64) :
    s.nextCallId = ("call_" ++ Nat.repr (s.callCounter + 1),
      { s with callCounter := s.callCounter + 1 }) := by
  unfold Session.nextCallId
  rw [Nat.mod_eq_of_lt h]

theorem issueCalls_get :
    ∀ (n : Nat) (s : Session) (i : Nat), i < n → s.callCounter + n < 2 ^ 64 →
      (issueCalls s n).1.get? i =
        some ("call_" ++ Nat.repr (s.callCounter + i + 1)) := by
  intro n
  induction n with
  | zero => intro s i hi _; omega
  | succ n ih =>
    intro s i hi hbound
    rw [issueCalls, nextCallId_eq s (by omega)]
    match i with
    | 0 => simp
    | i + 1 =>
      have hrec := ih { s with callCounter := s.callCounter + 1 } i
        (by omega) (by simp; omega)
      have harg : s.callCounter + 1 + i + 1 = s.callCounter + (i + 1) + 1 := by
        omega
      simp only [harg] at hrec
      simpa using hrec

theorem issueCalls_counter :
    ∀ (n : Nat) (s : Session), s.callCounter + n < 2 ^ 64 →
      (issueCalls s n).2.callCounter = s.callCounter + n := by
  intro n
  induction n with
  | zero => intro s _; simp [issueCalls]
  | succ n ih =>
    intro s hbound
    rw [issueCalls, nextCallId_eq s (by omega)]
    have hrec := ih { s with callCounter := s.callCounter + 1 } (by simp; omega)
    simp at hrec ⊢
    omega

/-! ## Claim theorems -/

/- Batteries marks the rational-number operations irreducible, which
blocks kernel evaluation of concrete `parse_ago_to_monty` runs; restore
the default reducibility locally. -/
attribute [local semireducible] Rat.mul Rat.add Rat.inv Rat.sub

/-- C6: `push_python_context` excludes a snippet exactly when the lexical
scan finds `_` as a standalone identifier (all other snippets are
appended), and the scan ignores `_` inside longer identifiers, string
literals and `#` comments while flagging standalone uses. -/
theorem pushPythonContext_excludes_iff_underscore :
    (∀ (s : Session) (code : String),
      (s.pushPythonContext code).pythonContext =
        if snippetReferencesUnderscore code then s.pythonContext
        else s.pythonContext ++ [code]) ∧
    snippetReferencesUnderscore "data = _" = true ∧
    snippetReferencesUnderscore "show(_)" = true ∧
    snippetReferencesUnderscore "x = _ if _ else 0" = true ∧
    snippetReferencesUnderscore "my_var = 1" = false ∧
    snippetReferencesUnderscore "_private = 42" = false ∧
    snippetReferencesUnderscore "__dunder__ = 1" = false ∧
    snippetReferencesUnderscore "x = \"a _ b\"" = false ∧
    snippetReferencesUnderscore "x = 1  # use _ later" = false ∧
    snippetReferencesUnderscore "# data = _" = false := by
  refine ⟨?_, by decide, by decide, by decide, by decide, by decide,
    by decide, by decide, by decide, by decide⟩
  intro s code
  unfold Session.pushPythonContext
  split <;> simp_all

/-- C7: iterating `next_call_id` yields ids of the form `call_<n>` with
`n` the post-increment counter value; distinct ids, strictly increasing
numeric components, and a counter that only ever advances. -/
theorem nextCallId_unique_and_increasing (s : Session) (n : Nat)
    (hbound : s.callCounter + n < 2 ^ 64) :
    (∀ i, i < n → (issueCalls s n).1.get? i =
      some ("call_" ++ Nat.repr (s.callCounter + i + 1))) ∧
    (∀ i j, i < j → j < n →
      (issueCalls s n).1.get? i ≠ (issueCalls s n).1.get? j) ∧
    (∀ i j a b, i < j → j < n →
      (issueCalls s n).1.get? i = some a →
      (issueCalls s n).1.get? j = some b → callIdNum a < callIdNum b) ∧
    (issueCalls s n).2.callCounter = s.callCounter + n := by
  have hget := fun i (hi : i < n) => issueCalls_get n s i hi hbound
  refine ⟨hget, ?_, ?_, issueCalls_counter n s hbound⟩
  · intro i j hij hj heq
    rw [hget i (by omega), hget j hj] at heq
    have ha := congrArg callIdNum (Option.some.inj heq)
    rw [callIdNum_call, callIdNum_call] at ha
    omega
  · intro i j a b hij hj ha hb
    rw [hget i (by omega)] at ha
    rw [hget j hj] at hb
    rw [← Option.some.inj ha, ← Option.some.inj hb,
      callIdNum_call, callIdNum_call]
    omega

/-- Witness for C7 at a fresh session and three issuances. -/
theorem nextCallId_unique_and_increasing_witness :
    (issueCalls Session.new 3).1 = ["call_1", "call_2", "call_3"] ∧
    (issueCalls Session.new 3).2.callCounter = 3 :=
  ⟨rfl, (nextCallId_unique_and_increasing Session.new 3 (by decide)).2.2.2⟩

/-- C8: the local relative-time resolver maps `"30m"` to one hour (the
one-hour minimum also applies to smaller minute counts), `"2d"` to 48
hours and `"1w"` to 168 hours, always yielding an integer hour count. -/
theorem parseAgo_minutes_days_weeks :
    parseAgoToMonty [.str "30m"] = .int 1 ∧
    parseAgoToMonty [.str "1m"] = .int 1 ∧
    parseAgoToMonty [.str "59m"] = .int 1 ∧
    parseAgoToMonty [.str "2d"] = .int 48 ∧
    parseAgoToMonty [.str "1w"] = .int 168 :=
  ⟨rfl, rfl, rfl, rfl, rfl⟩

/-! ### String dispatch lemmas (for C10 and C1) -/

theorem dropWhile_eq_self_of_head {p : Char → Bool} {l : List Char}
    (h : ∀ c, l.head? = some c → p c = false) : l.dropWhile p = l := by
  cases l with
  | nil => rfl
  | cons c rest => simp [List.dropWhile_cons, h c rfl]

theorem strTrim_eq_self (t : String)
    (h1 : ∀ c, t.data.head? = some c → c.isWhitespace = false)
    (h2 : ∀ c, t.data.getLast? = some c → c.isWhitespace = false) :
    strTrim t = t := by
  unfold strTrim
  rw [dropWhile_eq_self_of_head h1]
  rw [dropWhile_eq_self_of_head (by simpa using h2)]
  exact String.ext (by simp)

theorem takeWhile_append_all {p : Char → Bool} {l1 l2 : List Char}
    (h : l1.all p = true) :
    (l1 ++ l2).takeWhile p = l1 ++ l2.takeWhile p := by
  induction l1 with
  | nil => simp
  | cons c rest ih =>
    simp only [List.all_cons, Bool.and_eq_true] at h
    simp [List.takeWhile_cons, h.1, ih h.2]

theorem dropWhile_append_all {p : Char → Bool} {l1 l2 : List Char}
    (h : l1.all p = true) :
    (l1 ++ l2).dropWhile p = l2.dropWhile p := by
  induction l1 with
  | nil => simp
  | cons c rest ih =>
    simp only [List.all_cons, Bool.and_eq_true] at h
    simp [List.dropWhile_cons, h.1, ih h.2]

theorem alnumOrUnderscore_not_ws (c : Char)
    (h : (c.isAlphanum || c = '_') = true) : c.isWhitespace = false := by
  rcases Bool.or_eq_true _ _ |>.mp h with h1 | h1
  · simp only [Char.isAlphanum, Char.isAlpha, Char.isDigit, Char.isLower,
      Char.isUpper, Bool.or_eq_true, decide_eq_true_eq, Bool.and_eq_true] at h1
    simp only [Char.isWhitespace, Bool.or_eq_false_iff,
      decide_eq_false_iff_not]
    refine ⟨⟨⟨?_, ?_⟩, ?_⟩, ?_⟩ <;> rintro rfl <;> revert h1 <;> decide
  · have : c = '_' := by simpa using h1
    subst this
    decide

/-- Character facts about every known domain name: non-empty, and no
character is a dot, colon, percent or whitespace. -/
theorem haDomains_char_facts :
    haDomains.all (fun t => !t.data.isEmpty &&
      t.data.all (fun c =>
        !(c = '.' : Bool) && !(c = ':' : Bool) && !(c = '%' : Bool) &&
          !c.isWhitespace)) = true := by
  decide

theorem parseMagic_eq_none (t : String) (htrim : strTrim t = t)
    (hfc : ∀ c, firstChar t = some c → c ≠ ':' ∧ c ≠ '%') :
    parseMagic t = Option.none := by
  have hhelp : ¬(t = ":help" ∨ t = ":h") := by
    rintro (rfl | rfl)
    · exact (hfc ':' rfl).1 rfl
    · exact (hfc ':' rfl).1 rfl
  have hclear : ¬(t = ":clear" ∨ t = ":cls") := by
    rintro (rfl | rfl)
    · exact (hfc ':' rfl).1 rfl
    · exact (hfc ':' rfl).1 rfl
  have hpc : firstChar t ≠ some '%' := by
    intro he
    exact (hfc '%' he).2 rfl
  simp only [parseMagic, htrim, if_neg hhelp, if_neg hclear, if_pos hpc]

theorem pushHistory_callCounter (s : Session) (input : String) :
    (s.pushHistory input).callCounter = s.callCounter := by
  unfold Session.pushHistory
  by_cases h : strTrim input = "" <;> simp [h]


/-- C10: a trimmed input of the form `<domain>.<object_id>` with a known
domain and a non-empty alphanumeric/underscore object id bypasses the
interpreter and issues a `get_state` host call for that entity id, and a
trimmed input equal to a known domain name issues a `get_states` host
call filtered to that domain. -/
theorem eval_autoResolve_entity_and_domain (O : MontyOracle) (fuel : Nat)
    (s₁ s₂ : Session) (input₁ input₂ d obj : String)
    (hd : d ∈ haDomains) :
    (obj ≠ "" →
      (∀ c ∈ obj.data, (c.isAlphanum || c = '_') = true) →
      strTrim input₁ = d ++ "." ++ obj →
      (evalEngine O fuel s₁ input₁).1 =
        .hostCall ("call_" ++ Nat.repr ((s₁.callCounter + 1) % 2 ^ 64))
          "get_state" (.obj [("entity_id", .str (d ++ "." ++ obj))])) ∧
    (strTrim input₂ = d →
      (evalEngine O fuel s₂ input₂).1 =
        .hostCall ("call_" ++ Nat.repr ((s₂.callCounter + 1) % 2 ^ 64))
          "get_states" (.obj [("domain", .str d)])) := by
  have hdf := (List.all_eq_true.mp haDomains_char_facts) d hd
  simp only [Bool.and_eq_true, Bool.not_eq_true', List.isEmpty_eq_false,
    List.all_eq_true, decide_eq_false_iff_not, Bool.not_eq_true] at hdf
  obtain ⟨c0, dtl, hdcons⟩ := List.exists_cons_of_ne_nil hdf.1
  have hc0mem : c0 ∈ d.data := by
    rw [hdcons]
    exact List.mem_cons_self _ _
  have hc0f := hdf.2 c0 hc0mem
  constructor
  · intro hobj hchars htrim
    have hobjne : obj.data ≠ [] := by
      intro h
      exact hobj (String.ext (by simpa using h))
    have hEdata : (d ++ "." ++ obj).data = d.data ++ '.' :: obj.data := by
      rw [String.data_append, String.data_append]
      simp
    have hEhead : (d ++ "." ++ obj).data.head? = some c0 := by
      rw [hEdata, hdcons]
      rfl
    have hobjrevne : obj.data.reverse ≠ [] := by simpa using hobjne
    obtain ⟨cl, rl, hrl⟩ := List.exists_cons_of_ne_nil hobjrevne
    have hcl : obj.data.getLast? = some cl := by
      rw [← List.head?_reverse, hrl]
      rfl
    have hclmem : cl ∈ obj.data := by
      have hmem : cl ∈ obj.data.reverse := by
        rw [hrl]
        exact List.mem_cons_self _ _
      exact List.mem_reverse.mp hmem
    have hEtrim : strTrim (d ++ "." ++ obj) = d ++ "." ++ obj := by
      apply strTrim_eq_self
      · intro c hc
        rw [hEhead] at hc
        cases hc
        exact hc0f.2
      · intro c hc
        rw [hEdata, List.getLast?_append] at hc
        have h1 : ('.' :: obj.data).getLast? = some cl := by
          have hsplit : ('.' :: obj.data) = ['.'] ++ obj.data := rfl
          rw [hsplit, List.getLast?_append, hcl]
          rfl
        rw [h1] at hc
        simp [Option.or] at hc
        cases hc
        exact alnumOrUnderscore_not_ws _ (hchars _ hclmem)
    have hfcE : ∀ c, firstChar (d ++ "." ++ obj) = some c → c ≠ ':' ∧ c ≠ '%' := by
      intro c hc
      unfold firstChar at hc
      rw [hEhead] at hc
      cases hc
      exact ⟨hc0f.1.1.2, hc0f.1.2⟩
    have hpm := parseMagic_eq_none _ hEtrim hfcE
    have hne : (d ++ "." ++ obj) ≠ "" := by
      intro h
      have hdata := congrArg String.data h
      rw [hEdata] at hdata
      simp at hdata
    have hddotAll : d.data.all (fun c => decide ¬(c = '.')) = true :=
      List.all_eq_true.mpr fun x hx => by simpa using (hdf.2 x hx).1.1.1
    have hlike : looksLikeEntityId (d ++ "." ++ obj) = true := by
      unfold looksLikeEntityId
      rw [hEdata]
      rw [show (fun c : Char => (c ≠ '.' : Bool)) = fun c : Char => decide ¬(c = '.') from rfl]
      have htw : ('.' :: obj.data).takeWhile (fun c => decide ¬(c = '.')) = [] := by
        simp
      have hdw : ('.' :: obj.data).dropWhile (fun c => decide ¬(c = '.')) =
          '.' :: obj.data := by
        simp
      rw [takeWhile_append_all hddotAll, dropWhile_append_all hddotAll, htw, hdw]
      have hmk : String.mk d.data = d := rfl
      simp only [List.append_nil, hmk, Bool.and_eq_true, Bool.not_eq_true',
        List.isEmpty_eq_false]
      refine ⟨⟨⟨hdf.1, hobjne⟩, List.elem_iff.mpr hd⟩, ?_⟩
      exact List.all_eq_true.mpr fun x hx => by simpa using hchars x hx
    simp only [evalEngine, htrim, if_neg hne, hpm, hlike]
    simp [dispatchMagic, Session.nextCallId, pushHistory_callCounter]
  · intro htrim
    have hdrevne : d.data.reverse ≠ [] := by simpa using hdf.1
    obtain ⟨cl, rl, hrl⟩ := List.exists_cons_of_ne_nil hdrevne
    have hcl : d.data.getLast? = some cl := by
      rw [← List.head?_reverse, hrl]
      rfl
    have hclmem : cl ∈ d.data := by
      have hmem : cl ∈ d.data.reverse := by
        rw [hrl]
        exact List.mem_cons_self _ _
      exact List.mem_reverse.mp hmem
    have hdtrim : strTrim d = d := by
      apply strTrim_eq_self
      · intro c hc
        rw [hdcons] at hc
        cases hc
        exact hc0f.2
      · intro c hc
        rw [hcl] at hc
        cases hc
        exact (hdf.2 cl hclmem).2
    have hfc : ∀ c, firstChar d = some c → c ≠ ':' ∧ c ≠ '%' := by
      intro c hc
      unfold firstChar at hc
      rw [hdcons] at hc
      cases hc
      exact ⟨hc0f.1.1.2, hc0f.1.2⟩
    have hpm := parseMagic_eq_none _ hdtrim hfc
    have hne : d ≠ "" := by
      intro h
      exact hdf.1 (by simpa using congrArg String.data h)
    have hlike : looksLikeEntityId d = false := by
      unfold looksLikeEntityId
      have hdrop : d.data.dropWhile (fun c => decide ¬(c = '.')) = [] :=
        List.dropWhile_eq_nil_iff.mpr fun x hx => by
          simpa using (hdf.2 x hx).1.1.1
      rw [show (fun c : Char => (c ≠ '.' : Bool)) = fun c : Char => decide ¬(c = '.') from rfl]
      rw [hdrop]
    have hdom : looksLikeDomain d = true := by
      unfold looksLikeDomain
      exact List.elem_iff.mpr hd
    simp only [evalEngine, htrim, if_neg hne, hpm, hlike, hdom]
    simp [dispatchMagic, Session.nextCallId, pushHistory_callCounter]

/-- An oracle whose behaviour is irrelevant (used to witness theorems
about code paths that never consult the interpreter). -/
def unusedOracle : MontyOracle :=
  { evalPython := fun _ _ _ => .error "unused"
    resume := fun _ _ => .error "unused"
    displayObj := fun _ => "" }

/-- Witness for C10 at fresh sessions and the inputs `light.kitchen` and
`light`. -/
theorem eval_autoResolve_entity_and_domain_witness :
    (evalEngine unusedOracle 0 Session.new "light.kitchen").1 =
      .hostCall "call_1" "get_state"
        (.obj [("entity_id", .str "light.kitchen")]) ∧
    (evalEngine unusedOracle 0 Session.new "light").1 =
      .hostCall "call_1" "get_states" (.obj [("domain", .str "light")]) := by
  have h := eval_autoResolve_entity_and_domain unusedOracle 0 Session.new
    Session.new "light.kitchen" "light" "light" "kitchen" (by decide)
  have hid : ("call_" ++ Nat.repr ((Session.new.callCounter + 1) % 2 ^ 64)) =
      "call_1" := by decide
  have h1 := h.1 (by decide) (by decide) (by decide)
  have h2 := h.2 (by decide)
  rw [hid] at h1 h2
  have he : ("light" ++ "." ++ "kitchen") = "light.kitchen" := by decide
  rw [he] at h1
  exact ⟨h1, h2⟩

theorem pushHistory_pythonContextJoined (s : Session) (input : String) :
    (s.pushHistory input).pythonContextJoined = s.pythonContextJoined := by
  unfold Session.pushHistory Session.pythonContextJoined
  by_cases h : strTrim input = "" <;> simp [h]

theorem pushHistory_lastResult (s : Session) (input : String) :
    (s.pushHistory input).lastResult = s.lastResult := by
  unfold Session.pushHistory
  by_cases h : strTrim input = "" <;> simp [h]

theorem pushHistory_pendingMonty (s : Session) (input : String) :
    (s.pushHistory input).pendingMonty = s.pendingMonty := by
  unfold Session.pushHistory
  by_cases h : strTrim input = "" <;> simp [h]

/-- A stored pending host call used in concrete counterexamples. -/
def pendingStub : PendingMonty :=
  { callId := "call_1", snapshot := 0, outputSoFar := ""
    originalSnippet := "x = state(1)", method := "get_state"
    params := Json.obj [("entity_id", Json.str "sensor.t")] }

/-- Concrete session state with `pending_monty` occupied. -/
def sessionWithPending : Session :=
  { historyEntries := ["x = state(1)"], callCounter := 1
    pendingMonty := some pendingStub, pythonContext := []
    lastResult := Option.none }

/-- C1 counterexample: with a pending host call outstanding, a second
evaluation is processed normally — it returns a fresh host call (not a
session-level error) and allocates a new call id. -/
theorem eval_while_pending_cex :
    (evalEngine unusedOracle 0 sessionWithPending "light").1 =
      .hostCall "call_2" "get_states" (.obj [("domain", .str "light")]) ∧
    (evalEngine unusedOracle 0 sessionWithPending "light").2.callCounter = 2 ∧
    (evalEngine unusedOracle 0 sessionWithPending "light").2.pendingMonty =
      some pendingStub :=
  ⟨rfl, rfl, rfl⟩

/-- C1 (amended): `eval` does not check for an outstanding pending call.
A bare-domain input allocates a fresh call id and leaves the stored
pending call in place; a Python snippet that pauses on a host-bound
function allocates a fresh call id and silently replaces the stored
pending call with the new one. -/
theorem eval_while_pending_proceeds (O : MontyOracle) (fuel : Nat)
    (s : Session) (p : PendingMonty) (hp : s.pendingMonty = some p) :
    ((evalEngine O fuel s "light").1 =
        .hostCall ("call_" ++ Nat.repr ((s.callCounter + 1) % 2 ^ 64))
          "get_states" (.obj [("domain", .str "light")]) ∧
      (evalEngine O fuel s "light").2.pendingMonty = some p) ∧
    (∀ out args snap,
      O.evalPython s.pythonContextJoined "x = state(1)" s.lastResult =
        .hostCallNeeded out "state" args snap →
      evalEngine O fuel s "x = state(1)" =
        (.hostCall ("call_" ++ Nat.repr ((s.callCounter + 1) % 2 ^ 64))
            "get_state"
            (.obj [("entity_id", .str (argAsString O.displayObj args.head?))]),
          ((s.pushHistory "x = state(1)").nextCallId.2).storePendingMonty
            { callId := "call_" ++ Nat.repr ((s.callCounter + 1) % 2 ^ 64)
              snapshot := snap
              outputSoFar := out
              originalSnippet := "x = state(1)"
              method := "get_state"
              params := .obj [("entity_id",
                .str (argAsString O.displayObj args.head?))] })) := by
  constructor
  · constructor
    · simp only [evalEngine, show strTrim "light" = "light" from rfl,
        if_neg (by decide : ¬("light" = "")),
        show parseMagic "light" = Option.none from rfl,
        show looksLikeEntityId "light" = false from rfl,
        show looksLikeDomain "light" = true from rfl,
        Bool.false_eq_true, if_false, if_true]
      simp [dispatchMagic, Session.nextCallId, pushHistory_callCounter]
    · simp only [evalEngine, show strTrim "light" = "light" from rfl,
        if_neg (by decide : ¬("light" = "")),
        show parseMagic "light" = Option.none from rfl,
        show looksLikeEntityId "light" = false from rfl,
        show looksLikeDomain "light" = true from rfl,
        Bool.false_eq_true, if_false, if_true]
      simp [dispatchMagic, Session.nextCallId, Session.storePendingMonty,
        pushHistory_pendingMonty, hp]
  · intro out args snap ho
    simp only [evalEngine, show strTrim "x = state(1)" = "x = state(1)" from rfl,
      if_neg (by decide : ¬("x = state(1)" = "")),
      show parseMagic "x = state(1)" = Option.none from rfl,
      show looksLikeEntityId "x = state(1)" = false from rfl,
      show looksLikeDomain "x = state(1)" = false from rfl,
      Bool.false_eq_true, if_false]
    simp only [evalPythonEngine, pushHistory_pythonContextJoined,
      pushHistory_lastResult, ho]
    rw [handleMontyEvalResult_pause]
    simp only [show ("state" = "show") = False from by simp,
      show chartFunctionNames.contains "state" = false from rfl,
      show ("state" = "ago") = False from by simp,
      Bool.false_eq_true, if_false]
    simp only [show mapExtCallToHostCall O.displayObj "state" args =
      some ("get_state", .obj [("entity_id",
        .str (argAsString O.displayObj args.head?))]) from rfl]
    simp [Session.nextCallId, pushHistory_callCounter, combineOutput,
      Session.storePendingMonty]

/-- Oracle pausing on a host-bound `state` call (for the C1 witness). -/
def pausingOracle : MontyOracle :=
  { evalPython := fun _ _ _ => .hostCallNeeded "" "state" [.str "sensor.t"] 7
    resume := fun _ _ => .error "unused"
    displayObj := fun _ => "" }

/-- Witness for C1 (amended) at the concrete pending session. -/
theorem eval_while_pending_proceeds_witness :
    (evalEngine pausingOracle 0 sessionWithPending "light").1 =
      .hostCall "call_2" "get_states" (.obj [("domain", .str "light")]) ∧
    (evalEngine pausingOracle 0 sessionWithPending "x = state(1)").2.pendingMonty =
      some { callId := "call_2", snapshot := 7, outputSoFar := ""
             originalSnippet := "x = state(1)", method := "get_state"
             params := .obj [("entity_id", .str "sensor.t")] } := by
  have h := eval_while_pending_proceeds pausingOracle 0 sessionWithPending
    pendingStub rfl
  have h2 := h.2 "" [MontyObject.str "sensor.t"] 7 rfl
  constructor
  · have h1 := h.1.1
    rw [show ("call_" ++
        Nat.repr ((sessionWithPending.callCounter + 1) % 2 ^ 64)) = "call_2"
      from by decide] at h1
    exact h1
  · rw [h2]
    rfl

/-- C2 counterexample: fulfilling an unknown call id with a well-formed
JSON payload is not rejected with an error — it returns the payload
formatted as a magic-command response (a copyable JSON block), with the
session unchanged. -/
theorem fulfill_unknown_id_cex :
    fulfillHostCall unusedOracle 0 sessionWithPending "call_7"
      (.ok (Json.obj [])) =
      (.copyable "\x7b\x7d" (some "JSON"), sessionWithPending) :=
  rfl

/-- C2 (amended): `fulfill_host_call` with a call id that does not match
the stored pending call never resumes anything and leaves the entire
session — the pending slot included — unchanged; the payload is formatted
as a magic-command response (an error outcome only when the payload does
not parse), not necessarily an error. -/
theorem fulfill_unknown_id_no_side_effects (O : MontyOracle) (fuel : Nat)
    (s : Session) (callId : String) (parsed : Except String Json)
    (h : s.hasPendingMonty callId = false) :
    (fulfillHostCall O fuel s callId parsed).2 = s := by
  unfold fulfillHostCall
  simp only [h, Bool.false_eq_true, if_false]
  cases parsed with
  | error e => rfl
  | ok value =>
    simp only []
    split_ifs <;> rfl

/-- Witness for C2 (amended) at a concrete non-matching id. -/
theorem fulfill_unknown_id_no_side_effects_witness :
    sessionWithPending.hasPendingMonty "call_9" = false ∧
    (fulfillHostCall unusedOracle 0 sessionWithPending "call_9"
      (.ok (Json.obj []))).2 = sessionWithPending :=
  ⟨rfl, fulfill_unknown_id_no_side_effects unusedOracle 0 sessionWithPending
    "call_9" (.ok (Json.obj [])) rfl⟩

theorem pushPythonContext_callCounter (s : Session) (code : String) :
    (s.pushPythonContext code).callCounter = s.callCounter := by
  unfold Session.pushPythonContext
  split <;> rfl

theorem pushPythonContext_pendingMonty (s : Session) (code : String) :
    (s.pushPythonContext code).pendingMonty = s.pendingMonty := by
  unfold Session.pushPythonContext
  split <;> rfl

theorem renderComplete_session (display : MontyObject → String) (s : Session)
    (output : String) (res : Option MontyObject) :
    (renderComplete display s output res).2 =
      (match res with
       | some obj => s.setLastResult obj
       | Option.none => s.setLastResult .none) := by
  unfold renderComplete
  cases res <;> dsimp <;> (repeat' split) <;> rfl

theorem renderComplete_pythonContext (display : MontyObject → String)
    (s : Session) (output : String) (res : Option MontyObject) :
    (renderComplete display s output res).2.pythonContext = s.pythonContext := by
  rw [renderComplete_session]
  cases res <;> rfl

theorem renderComplete_callCounter (display : MontyObject → String)
    (s : Session) (output : String) (res : Option MontyObject) :
    (renderComplete display s output res).2.callCounter = s.callCounter := by
  rw [renderComplete_session]
  cases res <;> rfl

theorem renderComplete_pendingMonty (display : MontyObject → String)
    (s : Session) (output : String) (res : Option MontyObject) :
    (renderComplete display s output res).2.pendingMonty = s.pendingMonty := by
  rw [renderComplete_session]
  cases res <;> rfl

/-- C5: with a non-empty replay context, when evaluation under the prefix
errors and the clean re-evaluation completes, the engine behaves exactly
as if the context had been cleared beforehand — the accumulated entries
are discarded (at most the new snippet remains recorded) and the clean
result is returned.  When both evaluations error, the session is left
unchanged and the original (prefixed) error is returned. -/
theorem evalPython_poisoned_context_recovery (O : MontyOracle) (fuel : Nat)
    (s : Session) (input : String)
    (hctx : s.pythonContextJoined ≠ "") :
    (∀ msg out res,
      O.evalPython s.pythonContextJoined input s.lastResult = .error msg →
      O.evalPython "" input s.lastResult = .complete out res →
      evalPythonEngine O fuel s input =
        evalPythonEngine O fuel s.clearPythonContext input ∧
      ∀ c ∈ (evalPythonEngine O fuel s input).2.pythonContext, c = input) ∧
    (∀ msg msg2,
      O.evalPython s.pythonContextJoined input s.lastResult = .error msg →
      O.evalPython "" input s.lastResult = .error msg2 →
      evalPythonEngine O fuel s input = (.error msg, s)) := by
  have hclearctx : s.clearPythonContext.pythonContextJoined = "" := rfl
  have hclearlast : s.clearPythonContext.lastResult = s.lastResult := rfl
  constructor
  · intro msg out res herr hretry
    have heq : evalPythonEngine O fuel s input =
        evalPythonEngine O fuel s.clearPythonContext input := by
      simp only [evalPythonEngine, hclearctx, hclearlast, herr, hretry,
        if_pos hctx]
    refine ⟨heq, ?_⟩
    rw [heq]
    simp only [evalPythonEngine, hclearctx, hclearlast, hretry]
    rw [handleMontyEvalResult_complete, renderComplete_pythonContext]
    unfold Session.pushPythonContext Session.clearPythonContext
    split
    · simp
    · intro c hc
      simpa using hc
  · intro msg msg2 herr hretry
    simp only [evalPythonEngine, herr, if_pos hctx, hretry]
    rw [handleMontyEvalResult_error]
    rfl

/-- Oracle erroring under a context prefix and completing clean (for the
C5 witness). -/
def poisonedOracle : MontyOracle :=
  { evalPython := fun ctx _ _ =>
      if ctx = "" then .complete "" (some (.int 2)) else .error "poisoned"
    resume := fun _ _ => .error "unused"
    displayObj := fun _ => "2" }

/-- Concrete session with one accumulated context snippet. -/
def sessionWithContext : Session :=
  { historyEntries := [], callCounter := 0, pendingMonty := Option.none
    pythonContext := ["state = 5"], lastResult := Option.none }

/-- Witness for C5 at the concrete poisoned context. -/
theorem evalPython_poisoned_context_recovery_witness :
    sessionWithContext.pythonContextJoined ≠ "" ∧
    evalPythonEngine poisonedOracle 0 sessionWithContext "y = 2" =
      evalPythonEngine poisonedOracle 0
        sessionWithContext.clearPythonContext "y = 2" := by
  have h := (evalPython_poisoned_context_recovery poisonedOracle 0
    sessionWithContext "y = 2" (by decide)).1 "poisoned" ""
    (some (.int 2)) rfl rfl
  exact ⟨by decide, h.1⟩

/-- Oracle that errors under a context prefix, pauses host-bound without
one, and errors at resumption (C4 counterexample). -/
def poisonPauseOracle : MontyOracle :=
  { evalPython := fun ctx _ _ =>
      if ctx = "" then .hostCallNeeded "" "state" [.str "sensor.t"] 3
      else .error "boom"
    resume := fun _ _ => .error "late failure"
    displayObj := fun _ => "" }

/-- C4 counterexample: the snippet errors under the accumulated context,
the clean retry pauses on a host call (clearing the context), and the
resumption then ends in a runtime error — the evaluation ended in a
runtime error yet the previously accumulated context entry was removed. -/
theorem runtime_error_after_poison_clear_cex :
    (let step1 := evalEngine poisonPauseOracle 9 sessionWithContext "state(1)"
     let step2 := fulfillHostCall poisonPauseOracle 9 step1.2 "call_1"
       (.ok (Json.obj []))
     step1.1 = .hostCall "call_1" "get_state"
         (.obj [("entity_id", .str "sensor.t")]) ∧
       step2.1 = .error "late failure" ∧
       step2.2.pythonContext = [] ∧
       sessionWithContext.pythonContext = ["state = 5"]) :=
  ⟨rfl, rfl, rfl, rfl⟩

/-- C4 (amended): a runtime error reported directly — with no context, or
when both the prefixed and the clean evaluation error — leaves the whole
session unchanged, committing nothing; an error at resumption of a
fulfilled host call likewise preserves the accumulated context and the
last result.  (When the prefixed run errors but the clean retry pauses,
poison-recovery clears the context first; see the counterexample.) -/
theorem runtime_error_preserves_context (O : MontyOracle) (fuel : Nat)
    (s : Session) (input cid : String) (j : Json) (msg : String) :
    (s.pythonContextJoined = "" →
      O.evalPython s.pythonContextJoined input s.lastResult = .error msg →
      evalPythonEngine O fuel s input = (.error msg, s)) ∧
    (s.pythonContextJoined ≠ "" →
      O.evalPython s.pythonContextJoined input s.lastResult = .error msg →
      (∀ msg2, O.evalPython "" input s.lastResult = .error msg2 →
        evalPythonEngine O fuel s input = (.error msg, s))) ∧
    (∀ p : PendingMonty, s.pendingMonty = some p → p.callId = cid →
      O.resume p.snapshot (convertMontyValue p.method j) = .error msg →
      (fulfillHostCall O fuel s cid (.ok j)).2.pythonContext =
          s.pythonContext ∧
        (fulfillHostCall O fuel s cid (.ok j)).2.lastResult = s.lastResult ∧
        (fulfillHostCall O fuel s cid (.ok j)).1 =
          oneOrVstack ((if p.outputSoFar = "" then []
            else [RenderSpec.text p.outputSoFar]) ++ [RenderSpec.error msg])) := by
  refine ⟨?_, ?_, ?_⟩
  · intro hempty herr
    rw [hempty] at herr
    simp only [evalPythonEngine, hempty, herr]
    simp only [ne_eq, not_true_eq_false, if_false]
    rw [handleMontyEvalResult_error]
    rfl
  · intro hctx herr msg2 hretry
    simp only [evalPythonEngine, herr, if_pos hctx, hretry]
    rw [handleMontyEvalResult_error]
    rfl
  · intro p hp hcid hres
    have hhas : s.hasPendingMonty cid = true := by
      simp [Session.hasPendingMonty, hp, hcid]
    have htake : s.takePendingMonty cid =
        (some p, { s with pendingMonty := Option.none }) := by
      simp [Session.takePendingMonty, hp, hcid]
    simp only [fulfillHostCall, hhas, if_true]
    simp only [fulfillMontyHostCall, htake, hres]
    exact ⟨by trivial, by trivial, by trivial⟩

/-- Witness for C4 (amended) at the concrete pending session whose
resumption errors. -/
theorem runtime_error_preserves_context_witness :
    (fulfillHostCall poisonPauseOracle 0 sessionWithPending "call_1"
      (.ok (Json.obj []))).2.pythonContext =
      sessionWithPending.pythonContext :=
  ((runtime_error_preserves_context poisonPauseOracle 0 sessionWithPending
    "x" "call_1" (Json.obj []) "late failure").2.2 pendingStub rfl rfl rfl).1

/-- Oracle pausing on `show` whose resumption would continue with more
output and a different result (C9 counterexample). -/
def showDropOracle : MontyOracle :=
  { evalPython := fun _ _ _ => .hostCallNeeded "" "show" [.int 1] 0
    resume := fun _ _ => .complete "after" (some (.int 7))
    displayObj := fun _ => "shown" }

/-- C9 counterexample: a snippet pausing on the locally handled `show` is
rendered immediately and its continuation is dropped — the resumed
execution (which would print `after` and yield 7) never runs: the shown
argument becomes the last result and no pending call remains. -/
theorem local_show_discards_continuation_cex :
    (evalEngine showDropOracle 9 Session.new "show(1)").1 = .text "shown" ∧
    (evalEngine showDropOracle 9 Session.new "show(1)").2.lastResult =
      some (.int 1) ∧
    (evalEngine showDropOracle 9 Session.new "show(1)").2.pendingMonty =
      Option.none :=
  ⟨rfl, rfl, rfl⟩

/-- C9 (amended): an `ago` pause is resolved in-process — no call id is
allocated, no pending call stored — and its continuation is resumed with
the parsed hour count, after which execution continues: a completed
resumption is committed and rendered, and a resumption that pauses again
on a host-bound call stores a fresh pending call.  A `show` pause and the
`plot_*` chart pauses are also resolved in-process without a call id, but
their continuation is discarded: the `show` outcome never consults the
interpreter resumption, and the chart outcome — the chart rendering,
returned immediately — does not depend on the oracle at all. -/
theorem local_pause_resolution (O O2 : MontyOracle) (fuel : Nat)
    (s : Session) (input pre out : String) (args : List MontyObject)
    (snap : Nat) :
    (∀ out2 res, O.resume snap (parseAgoToMonty args) = .complete out2 res →
      handleMontyEvalResult O (fuel + 1) s input pre
          (.hostCallNeeded out "ago" args snap) =
        renderComplete O.displayObj (s.pushPythonContext input)
          (combineOutput (combineOutput pre out) out2) res ∧
      (handleMontyEvalResult O (fuel + 1) s input pre
          (.hostCallNeeded out "ago" args snap)).2.callCounter =
        s.callCounter ∧
      (handleMontyEvalResult O (fuel + 1) s input pre
          (.hostCallNeeded out "ago" args snap)).2.pendingMonty =
        s.pendingMonty) ∧
    (∀ out2 args2 snap2,
      O.resume snap (parseAgoToMonty args) =
        .hostCallNeeded out2 "state" args2 snap2 →
      (handleMontyEvalResult O (fuel + 1) s input pre
          (.hostCallNeeded out "ago" args snap)).1 =
        .hostCall ("call_" ++ Nat.repr ((s.callCounter + 1) % 2 ^ 64))
          "get_state" (.obj [("entity_id",
            .str (argAsString O.displayObj args2.head?))]) ∧
      (handleMontyEvalResult O (fuel + 1) s input pre
          (.hostCallNeeded out "ago" args snap)).2.pendingMonty =
        some { callId := "call_" ++ Nat.repr ((s.callCounter + 1) % 2 ^ 64)
               snapshot := snap2
               outputSoFar := combineOutput (combineOutput pre out) out2
               originalSnippet := input
               method := "get_state"
               params := .obj [("entity_id",
                 .str (argAsString O.displayObj args2.head?))] }) ∧
    (O.displayObj = O2.displayObj →
      handleMontyEvalResult O fuel s input pre
          (.hostCallNeeded out "show" args snap) =
        handleMontyEvalResult O2 fuel s input pre
          (.hostCallNeeded out "show" args snap) ∧
      (handleMontyEvalResult O fuel s input pre
          (.hostCallNeeded out "show" args snap)).2.callCounter =
        s.callCounter ∧
      (handleMontyEvalResult O fuel s input pre
          (.hostCallNeeded out "show" args snap)).2.pendingMonty =
        s.pendingMonty) ∧
    (∀ fn, chartFunctionNames.contains fn = true →
      handleMontyEvalResult O fuel s input pre
          (.hostCallNeeded out fn args snap) =
        handleMontyEvalResult O2 fuel s input pre
          (.hostCallNeeded out fn args snap) ∧
      (handleMontyEvalResult O fuel s input pre
          (.hostCallNeeded out fn args snap)).1 =
        oneOrVstack ((if combineOutput pre out = "" then []
          else [RenderSpec.text (combineOutput pre out)]) ++
          [buildChart fn args]) ∧
      (handleMontyEvalResult O fuel s input pre
          (.hostCallNeeded out fn args snap)).2.callCounter =
        s.callCounter ∧
      (handleMontyEvalResult O fuel s input pre
          (.hostCallNeeded out fn args snap)).2.pendingMonty =
        s.pendingMonty) := by
  refine ⟨?_, ?_, ?_, ?_⟩
  · intro out2 res hres
    rw [handleMontyEvalResult_pause]
    simp only [show ("ago" = "show") = False from by simp,
      show chartFunctionNames.contains "ago" = false from rfl,
      Bool.false_eq_true, if_false, if_true, if_pos rfl]
    rw [hres, handleMontyEvalResult_complete]
    refine ⟨rfl, ?_, ?_⟩
    · rw [renderComplete_callCounter, pushPythonContext_callCounter]
    · rw [renderComplete_pendingMonty, pushPythonContext_pendingMonty]
  · intro out2 args2 snap2 hres
    rw [handleMontyEvalResult_pause]
    simp only [show ("ago" = "show") = False from by simp,
      show chartFunctionNames.contains "ago" = false from rfl,
      Bool.false_eq_true, if_false, if_true, if_pos rfl]
    rw [hres, handleMontyEvalResult_pause]
    simp only [show ("state" = "show") = False from by simp,
      show chartFunctionNames.contains "state" = false from rfl,
      show ("state" = "ago") = False from by simp,
      Bool.false_eq_true, if_false]
    simp only [show ∀ d, mapExtCallToHostCall d "state" args2 =
      some ("get_state", .obj [("entity_id",
        .str (argAsString d args2.head?))]) from fun d => rfl]
    simp [Session.nextCallId, Session.storePendingMonty]
  · intro hdisp
    rw [handleMontyEvalResult_pause, handleMontyEvalResult_pause, hdisp]
    refine ⟨rfl, ?_, ?_⟩ <;>
      · simp only [show ("show" = "show") = True from by simp, if_true]
        cases args.head? <;>
          simp [Session.setLastResult, pushPythonContext_callCounter,
            pushPythonContext_pendingMonty]
  · intro fn hfn
    have hmem : fn ∈ chartFunctionNames := List.elem_iff.mp hfn
    have hnshow : (fn = "show") = False := by
      simp only [chartFunctionNames, List.mem_cons, List.not_mem_nil,
        or_false] at hmem
      rcases hmem with rfl | rfl | rfl | rfl <;> simp
    rw [handleMontyEvalResult_pause, handleMontyEvalResult_pause]
    simp only [hnshow, if_false, hfn, if_true]
    refine ⟨by trivial, by trivial, ?_, ?_⟩ <;>
      simp [pushPythonContext_callCounter, pushPythonContext_pendingMonty]

/-- Oracle resolving an `ago` resumption to a completion (C9 witness). -/
def agoOracle : MontyOracle :=
  { evalPython := fun _ _ _ => .error "unused"
    resume := fun _ _ => .complete "done" (some (.int 1))
    displayObj := fun _ => "1" }

/-- `showDropOracle` with a different resumption behaviour (the `show`
outcome must not depend on it). -/
def showDropOracle2 : MontyOracle :=
  { showDropOracle with resume := fun _ _ => .error "never" }

/-- Witness for C9 (amended): a concrete `ago` pause resolves without
allocating a call id, and concrete `show` and `plot_line` pauses yield
the same outcome under two oracles that differ in their resumption
behaviour — the `plot_line` pause returning its chart rendering
immediately with the counter untouched. -/
theorem local_pause_resolution_witness :
    (handleMontyEvalResult agoOracle 1 Session.new "h = ago(30)" ""
        (.hostCallNeeded "" "ago" [.str "30m"] 0)).2.callCounter = 0 ∧
    handleMontyEvalResult showDropOracle 0 Session.new "show(1)" ""
        (.hostCallNeeded "" "show" [.int 1] 0) =
      handleMontyEvalResult showDropOracle2 0 Session.new "show(1)" ""
        (.hostCallNeeded "" "show" [.int 1] 0) ∧
    handleMontyEvalResult showDropOracle 0 Session.new "plot_line(1)" ""
        (.hostCallNeeded "" "plot_line" [.int 1] 0) =
      handleMontyEvalResult showDropOracle2 0 Session.new "plot_line(1)" ""
        (.hostCallNeeded "" "plot_line" [.int 1] 0) ∧
    (handleMontyEvalResult showDropOracle 0 Session.new "plot_line(1)" ""
        (.hostCallNeeded "" "plot_line" [.int 1] 0)).1 =
      buildChart "plot_line" [.int 1] ∧
    (handleMontyEvalResult showDropOracle 0 Session.new "plot_line(1)" ""
        (.hostCallNeeded "" "plot_line" [.int 1] 0)).2.callCounter = 0 := by
  have h1 := (local_pause_resolution agoOracle agoOracle 0 Session.new
    "h = ago(30)" "" "" [.str "30m"] 0).1 "done" (some (.int 1)) rfl
  have h3 := (local_pause_resolution showDropOracle showDropOracle2 0
    Session.new "show(1)" "" "" [.int 1] 0).2.2.1 rfl
  have h4 := (local_pause_resolution showDropOracle showDropOracle2 0
    Session.new "plot_line(1)" "" "" [.int 1] 0).2.2.2 "plot_line" rfl
  exact ⟨h1.2.1, h3.1, h4.1, h4.2.1, h4.2.2.1⟩

/-- Oracle pausing host-bound and completing on resumption (C3 failing
input). -/
def pauseCompleteOracle : MontyOracle :=
  { evalPython := fun _ _ _ => .hostCallNeeded "" "state" [.str "sensor.t"] 0
    resume := fun _ _ => .complete "" (some (.int 5))
    displayObj := fun _ => "5" }

/-- C3 (code bug, at the failing input): an evaluation that pauses on a
host call and is then fulfilled to completion is never committed to the
replay context — `PendingMonty.original_snippet` is documented as
"committed to context on success", but no fulfillment path pushes it, so
the binding is absent from every later evaluation's context prefix. -/
theorem fulfilled_completion_not_committed :
    (let step1 := evalEngine pauseCompleteOracle 9 Session.new "x = state(1)"
     let step2 := fulfillHostCall pauseCompleteOracle 9 step1.2 "call_1"
       (.ok (Json.obj []))
     step1.1 = .hostCall "call_1" "get_state"
         (.obj [("entity_id", .str "sensor.t")]) ∧
       step2.2.lastResult = some (.int 5) ∧
       step2.2.pythonContext = [] ∧
       step2.2.pythonContextJoined = "") :=
  ⟨rfl, rfl, rfl, rfl⟩
